import Mathlib

/-!
Shallow embedding of the weekly-link-giver backend (server.js, local-file
variant, and the GitHub-backed variant).  JS values are modelled as follows:
strings are `String`, possibly-absent object fields are `Option`, JS string
truthiness (`""` and `undefined` are falsy) is made explicit through the
`jsOr`/`jsTruthy` helpers, and fallible calls are `Except`.  The remote
GitHub contents API is modelled oracle-style: each primitive HTTP call the
code may issue gets its outcome from an environment record, and the
embedded functions additionally return the trace of HTTP calls they made,
so that control-flow properties (the retry-once discipline) are provable.
-/

set_option autoImplicit false

namespace WLG

/-- JS `a || b` on strings: the empty string is falsy. -/
def jsOr (a b : String) : String := if a = "" then b else a

/-- JS `a || b` where `a` is a possibly-absent (`undefined`) string field. -/
def jsOrOpt (a : Option String) (b : String) : String :=
  match a with
  | none => b
  | some s => jsOr s b

/-- JS truthiness of a possibly-absent string field. -/
def jsTruthy (a : Option String) : Bool :=
  match a with
  | none => false
  | some s => !(s == "")

/-! ## GitHub contents-API storage layer (oracle-style embedding)

`ghGetOrInit` / `ghPut` / `ghUpdate` / `ghRead` from the GitHub-backed
server.  An HTTP call either succeeds with a payload or fails; a failure
carries `e.response?.status` (`none` when there was no HTTP response at
all, e.g. a network error).  A document's version token (its git blob
`sha`) is modelled as a `Nat`. -/

/-- Outcome of a single HTTP call against the GitHub contents API. -/
inductive GhOutcome (α : Type) where
  | ok (a : α)
  | err (status : Option Nat)
  deriving Repr, DecidableEq

/-- One HTTP call, as recorded in an execution trace.  `putContents sha`
is a write carrying the optional expected version token (`none`: the
initializing write sent without a sha). -/
inductive GhCall where
  | getContents
  | putContents (sha : Option Nat)
  deriving Repr, DecidableEq

/-- Environment for one `ghGetOrInit` call: the outcome of its GET and,
should the GET fail with 404, of the initializing PUT it then issues. -/
structure GOIOracle (V : Type) where
  get : GhOutcome (V × Nat)
  ipOut : GhOutcome Nat
  deriving Repr, DecidableEq

/-- `ghGetOrInit(jsonPath, initValue)`: fetch content + sha; on a 404 it
creates the document with `initValue` (a PUT without a sha) and returns
`initValue` with the newly assigned sha; any other error is rethrown.
Returns the result together with the trace of HTTP calls issued. -/
def ghGetOrInit {V : Type} (o : GOIOracle V) (initValue : V) :
    Except (Option Nat) (V × Nat) × List GhCall :=
  match o.get with
  | .ok vs => (.ok vs, [.getContents])
  | .err e =>
      if e = some 404 then
        match o.ipOut with
        | .ok sha => (.ok (initValue, sha), [.getContents, .putContents none])
        | .err e2 => (.error e2, [.getContents, .putContents none])
      else (.error e, [.getContents])

/-- Environment for one `ghUpdate` call: its first `ghGetOrInit`, the
first conditional PUT, and (used only on a 409 conflict) the retry's
`ghGetOrInit` and PUT. -/
structure UpdOracle (V : Type) where
  goi1 : GOIOracle V
  put1 : GhOutcome Nat
  goi2 : GOIOracle V
  put2 : GhOutcome Nat
  deriving Repr, DecidableEq

/-- `ghUpdate(jsonPath, mutator, initValue, commitMsg)`: `ghGetOrInit`,
apply `mutator`, PUT with the obtained sha; if and only if that PUT fails
with status 409, re-fetch via `ghGetOrInit`, re-apply `mutator`, and PUT
once more with the fresh sha, with no further conflict handling; any
other error of the first PUT, and any error of the retry, is rethrown.
Returns the result together with the trace of HTTP calls issued. -/
def ghUpdate {V : Type} (o : UpdOracle V) (mutator : V → V) (initValue : V) :
    Except (Option Nat) V × List GhCall :=
  match ghGetOrInit o.goi1 initValue with
  | (.error e, tr) => (.error e, tr)
  | (.ok (json, sha), tr1) =>
      let updated := mutator json
      match o.put1 with
      | .ok _ => (.ok updated, tr1 ++ [.putContents (some sha)])
      | .err e =>
          if e = some 409 then
            match ghGetOrInit o.goi2 initValue with
            | (.error e2, tr2) =>
                (.error e2, tr1 ++ [.putContents (some sha)] ++ tr2)
            | (.ok (fresh, fsha), tr2) =>
                let updated2 := mutator fresh
                match o.put2 with
                | .ok _ =>
                    (.ok updated2,
                      tr1 ++ [.putContents (some sha)] ++ tr2 ++ [.putContents (some fsha)])
                | .err e3 =>
                    (.error e3,
                      tr1 ++ [.putContents (some sha)] ++ tr2 ++ [.putContents (some fsha)])
          else (.error e, tr1 ++ [.putContents (some sha)])

/-- `ghRead(jsonPath, initValue)`: `ghGetOrInit` discarding the sha. -/
def ghRead {V : Type} (o : GOIOracle V) (initValue : V) : Except (Option Nat) V :=
  match ghGetOrInit o initValue with
  | (.ok (v, _), _) => .ok v
  | (.error e, _) => .error e

/-- Number of GET calls in a trace (a second GET witnesses the retry). -/
def numGets (tr : List GhCall) : Nat :=
  tr.countP (fun c => c == .getContents)

/-! ## Data model -/

/-- One entry of the `urls` document.  The `active` field is an optional
boolean because records read back from storage may lack it; every filter
in the code tests `u.active !== false`. -/
structure LinkRecord where
  id : String
  url : String
  title : String
  favicon : String
  active : Option Bool
  createdAt : Nat
  deriving Repr, DecidableEq

/-- JS `u.active !== false` (absent and `true` both count as active). -/
def isActive (u : LinkRecord) : Bool := !(u.active == some false)

/-- The `{id, title, favicon, url}` projection served to clients. -/
structure LinkView where
  id : String
  title : String
  favicon : String
  url : String
  deriving Repr, DecidableEq

def projRecord (u : LinkRecord) : LinkView :=
  ⟨u.id, u.title, u.favicon, u.url⟩

/-- A JSON API response: success payload, or an error status + message. -/
inductive ApiResp (α : Type) where
  | ok (a : α)
  | err (status : Nat) (msg : String)
  deriving Repr, DecidableEq

/-! ## Public routes -/

/-- Payload of `GET /api/urls`. -/
structure UrlsPayload where
  enabled : Bool
  urls : List LinkView
  deriving Repr, DecidableEq

/-- `GET /api/urls`: read the `urls` document, then the `state` document
(the whole body is one try/catch mapping any store failure to 500);
filter to `active !== false` unless `?all=1`; project each record. -/
def urlsRoute (urlsRead : Except (Option Nat) (List LinkRecord))
    (stateRead : Except (Option Nat) Bool) (all : Bool) : ApiResp UrlsPayload :=
  match urlsRead with
  | .error _ => .err 500 "read failed"
  | .ok urls =>
      match stateRead with
      | .error _ => .err 500 "read failed"
      | .ok enabled =>
          let onlyActive := if all then urls else urls.filter isActive
          .ok ⟨enabled, onlyActive.map projRecord⟩

/-- `GET /api/resolve/:id`: read the `state` document first; if disabled,
respond 403 before the `urls` document is ever consulted; otherwise find
the first record with the requested id and `active !== false`, answering
404 when there is none.  Store failures map to 500. -/
def resolveRoute (stateRead : Except (Option Nat) Bool)
    (urlsRead : Except (Option Nat) (List LinkRecord)) (rid : String) : ApiResp LinkView :=
  match stateRead with
  | .error _ => .err 500 "resolve failed"
  | .ok enabled =>
      if !enabled then .err 403 "Access disabled"
      else
        match urlsRead with
        | .error _ => .err 500 "resolve failed"
        | .ok urls =>
            match urls.find? (fun u => u.id == rid && isActive u) with
            | none => .err 404 "Not found"
            | some item => .ok ⟨item.id, item.title, item.favicon, item.url⟩

/-! ## Admin tokens, login, auth -/

/-- `randomToken()`: `"adm_" + nanoid(16)`; the random part is abstract. -/
def randomToken (x : String) : String := "adm_" ++ x

/-- `POST /api/admin/login`: reject with 401 when the `pin` body field is
absent or falsy (the empty string!) or not contained in the pins
document; on success add the freshly generated token `tok` to the
in-memory token set and return it. -/
def loginRoute (pins tokens : List String) (pinField : Option String) (tok : String) :
    ApiResp String × List String :=
  match pinField with
  | none => (.err 401 "bad pin", tokens)
  | some pin =>
      if pin == "" || !(pins.contains pin) then (.err 401 "bad pin", tokens)
      else (.ok tok, tok :: tokens)

/-- JS `String.prototype.replace` with a string pattern: remove the first
occurrence of `pat` (anywhere, not just as a leading segment). -/
def stripFirst (pat : List Char) : List Char → List Char
  | [] => []
  | c :: rest =>
      if pat.isPrefixOf (c :: rest) then (c :: rest).drop pat.length
      else c :: stripFirst pat rest

/-- Whether `pat` occurs as a contiguous segment of the list. -/
def occursIn (pat : List Char) : List Char → Bool
  | [] => pat.isEmpty
  | c :: rest => pat.isPrefixOf (c :: rest) || occursIn pat rest

/-- `hdr.replace("Bearer ", "")` from the `auth` middleware. -/
def stripBearer (hdr : String) : String :=
  String.mk (stripFirst "Bearer ".data hdr.data)

/-- The `auth` middleware: take the Authorization header (`""` when
absent), strip the first `"Bearer "` occurrence, and accept when the
remainder is truthy and a member of the in-memory token set. -/
def authOk (tokens : List String) (hdrField : Option String) : Bool :=
  let hdr := hdrField.getD ""
  let token := stripBearer hdr
  !(token == "") && tokens.contains token

/-! ## Metadata probe -/

/-- Leading-whitespace removal on a character list. -/
def trimLeftL : List Char → List Char
  | [] => []
  | c :: rest => if c.isWhitespace then trimLeftL rest else c :: rest

/-- JS `String.prototype.trim`: strip leading and trailing whitespace
(an executable rendering; JS and Lean agree on the relevant space, tab,
CR and LF characters). -/
def jsTrim (s : String) : String :=
  String.mk ((trimLeftL (trimLeftL s.data).reverse).reverse)

/-- Result of `getPageMeta`. -/
structure PageMeta where
  title : String
  favicon : String
  deriving Repr, DecidableEq

/-- The parts of a fetched HTML page that `getPageMeta` inspects:
`$("title").first().text()` and the `href` attributes of the three
`<link rel=...>` selectors (absent selector or absent attribute: none). -/
structure FetchedPage where
  titleText : String
  relIcon : Option String
  relShortcut : Option String
  relApple : Option String
  deriving Repr, DecidableEq

/-- Outcome of the bounded-timeout `axios.get(targetUrl)`. -/
inductive FetchResult where
  | ok (page : FetchedPage)
  | fail
  deriving Repr, DecidableEq

/-- Abstract model of the WHATWG `URL` constructor: `resolve href base`
is `new URL(href, base).href` (`none` when the constructor throws) and
`origin u` is `new URL(u).origin` (`none` when `u` does not parse). -/
structure UrlOps where
  resolve : String → String → Option String
  origin : String → Option String

/-- `getPageMeta(targetUrl)`: on fetch success, take the trimmed first
`<title>` text, pick the first non-empty `href` among the `icon`,
`shortcut icon`, `apple-touch-icon` rel links (in that order), resolve it
against the page URL; with no such link, or when resolution throws, fall
back to `origin + "/favicon.ico"` (keeping the already-assigned title).
On fetch failure the title stays `""` and the favicon falls back to the
origin-relative default when the URL parses, staying `""` otherwise.
A total function: the JS code catches everything and never rejects. -/
def getPageMeta (ops : UrlOps) (fetch : FetchResult) (targetUrl : String) : PageMeta :=
  match fetch with
  | .fail =>
      match ops.origin targetUrl with
      | some o => ⟨"", o ++ "/favicon.ico"⟩
      | none => ⟨"", ""⟩
  | .ok page =>
      let title := jsTrim page.titleText
      let iconHref := jsOrOpt page.relIcon (jsOrOpt page.relShortcut (jsOrOpt page.relApple ""))
      if iconHref == "" then
        match ops.origin targetUrl with
        | some o => ⟨title, o ++ "/favicon.ico"⟩
        | none => ⟨title, ""⟩
      else
        match ops.resolve iconHref targetUrl with
        | some abs => ⟨title, abs⟩
        | none =>
            match ops.origin targetUrl with
            | some o => ⟨title, o ++ "/favicon.ico"⟩
            | none => ⟨title, ""⟩

/-! ## Admin add / remove / toggle

The `urls` document is identified with its `urls` array (the
`db.urls = db.urls || []` defaulting is absorbed by the document's
`{urls: []}` initial value). -/

/-- The mutator passed to the first `ghUpdate` of `POST /api/admin/add`:
append a record with the caller-supplied title/favicon defaulted to `""`,
`active: true` and `createdAt: Date.now()`. -/
def addMutator (newId url : String) (titleField faviconField : Option String) (now : Nat)
    (db : List LinkRecord) : List LinkRecord :=
  db ++ [{ id := newId, url := url, title := jsOrOpt titleField "",
           favicon := jsOrOpt faviconField "", active := some true, createdAt := now }]

/-- The mutator of the backfill `ghUpdate`: locate the record by
`findIndex(u => u.id === targetId)` (the first hit) and, only there, set
`title = title || meta.title || hostname` and
`favicon = favicon || meta.favicon || ""`.  With no hit the document is
returned unchanged. -/
def backfillMutator (targetId metaTitle metaFavicon hostname : String) :
    List LinkRecord → List LinkRecord
  | [] => []
  | u :: rest =>
      if u.id == targetId then
        { u with title := jsOr u.title (jsOr metaTitle hostname),
                 favicon := jsOr u.favicon (jsOr metaFavicon "") } :: rest
      else u :: backfillMutator targetId metaTitle metaFavicon hostname rest

/-- The steps of the add handler, in the order they complete. -/
inductive AddEvent where
  | firstUpdate
  | probe
  | backfillUpdate
  | respond
  deriving Repr, DecidableEq

/-- Body of `POST /api/admin/add` (all fields may be absent). -/
structure AddBody where
  url : Option String
  title : Option String
  favicon : Option String
  deriving Repr, DecidableEq

/-- Environment of one add-handler run: the generated id and timestamp,
the catalog the (possibly retried) first `ghUpdate` finally applied its
mutator to, the store outcome of that update, the probe outcome, the
store outcome of the backfill update (a throw of `new URL(url)` inside
its mutator also lands here, as both are swallowed by the same catch),
and `new URL(url).hostname`. -/
structure AddEnv where
  newId : String
  now : Nat
  db0 : List LinkRecord
  firstUpd : Except (Option Nat) Unit
  probeOutcome : Except Unit PageMeta
  secondUpd : Except (Option Nat) Unit
  hostname : String

/-- Result of one add-handler run: the response, the final content of the
`urls` document, and the chronological trace of completed steps. -/
structure AddResult where
  resp : ApiResp String
  catalog : List LinkRecord
  events : List AddEvent
  deriving Repr, DecidableEq

/-- `POST /api/admin/add` (GitHub-backed variant): 400 without a url;
run the appending `ghUpdate` (failure: 500); read the appended record as
`result.urls[result.urls.length - 1]`; when the caller left title or
favicon falsy, probe the page and `await` a second, backfill `ghUpdate`,
swallowing any failure of either; finally respond `{ok, id: last.id}`. -/
def addHandler (env : AddEnv) (body : AddBody) : AddResult :=
  match body.url with
  | none => ⟨.err 400 "url required", env.db0, [.respond]⟩
  | some _url =>
      match env.firstUpd with
      | .error _ => ⟨.err 500 "add failed", env.db0, [.firstUpdate, .respond]⟩
      | .ok _ =>
          let result := addMutator env.newId _url body.title body.favicon env.now env.db0
          match result.getLast? with
          | none => ⟨.err 500 "add failed", result, [.firstUpdate, .respond]⟩
          | some last =>
              if !(jsTruthy body.title) || !(jsTruthy body.favicon) then
                match env.probeOutcome with
                | .error _ =>
                    ⟨.ok last.id, result, [.firstUpdate, .probe, .respond]⟩
                | .ok meta =>
                    match env.secondUpd with
                    | .error _ =>
                        ⟨.ok last.id, result,
                          [.firstUpdate, .probe, .backfillUpdate, .respond]⟩
                    | .ok _ =>
                        ⟨.ok last.id,
                          backfillMutator last.id meta.title meta.favicon env.hostname result,
                          [.firstUpdate, .probe, .backfillUpdate, .respond]⟩
              else ⟨.ok last.id, result, [.firstUpdate, .respond]⟩

/-- The mutator of `DELETE /api/admin/remove/:id` together with the
`removed` counter it computes: filter out every record whose id equals
the request id; `removed = before - after`. -/
def removeMutator (rid : String) (db : List LinkRecord) : List LinkRecord × Nat :=
  let filtered := db.filter (fun u => !(u.id == rid))
  (filtered, db.length - filtered.length)

/-- `DELETE /api/admin/remove/:id`: run the filtering `ghUpdate` (`db` is
the catalog the final mutator application saw, `upd` the store outcome);
on success answer `{ok, removed}`, on failure 500. -/
def removeRoute (upd : Except (Option Nat) Unit) (db : List LinkRecord) (rid : String) :
    ApiResp Nat :=
  match upd with
  | .error _ => .err 500 "remove failed"
  | .ok _ => .ok (removeMutator rid db).2

/-! ## The three documents as one path-addressed store (frame reasoning) -/

/-- The three document paths of the repository's data directory. -/
inductive DocPath where
  | urlsP
  | pinsP
  | stateP
  deriving Repr, DecidableEq

/-- Content of one document. -/
inductive DocValue where
  | urlsDoc (urls : List LinkRecord)
  | pinsDoc (pins : List String)
  | stateDoc (enabled : Bool)
  deriving Repr, DecidableEq

/-- The whole persisted state: a document per path. -/
def Store : Type := DocPath → DocValue

/-- A successful `ghUpdate` rewrites exactly the addressed document. -/
def applyUpdate (s : Store) (p : DocPath) (f : DocValue → DocValue) : Store :=
  fun q => if q = p then f (s q) else s q

/-- The mutator of `POST /api/admin/toggle`: `(_db) => ({enabled})` —
a wholesale overwrite ignoring the previous document entirely. -/
def toggleMutator (b : Bool) : DocValue → DocValue := fun _ => .stateDoc b

/-- Effect of a successful `POST /api/admin/toggle` on the store. -/
def toggleApply (s : Store) (b : Bool) : Store :=
  applyUpdate s .stateP (toggleMutator b)

/-- Lift a mutator of the urls array to a `DocValue` mutator. -/
def onUrls (f : List LinkRecord → List LinkRecord) : DocValue → DocValue
  | .urlsDoc l => .urlsDoc (f l)
  | v => v

/-- Effect of a successful first `ghUpdate` of add on the store. -/
def addApply (s : Store) (newId url : String) (t fv : Option String) (now : Nat) : Store :=
  applyUpdate s .urlsP (onUrls (addMutator newId url t fv now))

/-- Effect of a successful `ghUpdate` of remove on the store. -/
def removeApply (s : Store) (rid : String) : Store :=
  applyUpdate s .urlsP (onUrls (fun db => (removeMutator rid db).1))

/-! ## Helper lemmas -/

theorem numGets_append (a b : List GhCall) : numGets (a ++ b) = numGets a + numGets b := by
  simp [numGets, List.countP_append]

theorem numGets_put (sha : Option Nat) : numGets [GhCall.putContents sha] = 0 := rfl

theorem numGets_ghGetOrInit {V : Type} (o : GOIOracle V) (init : V) :
    numGets (ghGetOrInit o init).2 = 1 := by
  unfold ghGetOrInit
  cases o.get with
  | ok vs => rfl
  | err e =>
      dsimp only
      by_cases h : e = some 404
      · rw [if_pos h]
        cases o.ipOut <;> rfl
      · rw [if_neg h]
        rfl

/-! ## Claims -/

/-- C1: `ghUpdate` performs `ghGetOrInit`, applies the mutator, and
attempts a conditional put with the obtained version token; if and only
if that put fails with a version conflict (409) does it perform exactly
one retry — a re-fetch of the current value/version, a re-application of
the mutator to the fresh value, and a put with the fresh token — while a
conflict or any other error on the retry propagates to the caller, and a
non-conflict error on the first put propagates without any retry (the
trace then holds a single GET).  An error of the first `ghGetOrInit`
propagates untouched. -/
theorem ghUpdate_conflict_retry_spec {V : Type} (o : UpdOracle V) (f : V → V) (init : V) :
    (∀ e tr, ghGetOrInit o.goi1 init = (.error e, tr) →
        ghUpdate o f init = (.error e, tr)) ∧
    (∀ v sha tr1, ghGetOrInit o.goi1 init = (.ok (v, sha), tr1) →
      (∀ s, o.put1 = .ok s →
          ghUpdate o f init = (.ok (f v), tr1 ++ [.putContents (some sha)])) ∧
      (∀ e, o.put1 = .err e → e ≠ some 409 →
          ghUpdate o f init = (.error e, tr1 ++ [.putContents (some sha)])) ∧
      (o.put1 = .err (some 409) →
        (∀ e2 tr2, ghGetOrInit o.goi2 init = (.error e2, tr2) →
            ghUpdate o f init = (.error e2, tr1 ++ [.putContents (some sha)] ++ tr2)) ∧
        (∀ v2 sha2 tr2, ghGetOrInit o.goi2 init = (.ok (v2, sha2), tr2) →
          (∀ s2, o.put2 = .ok s2 →
              ghUpdate o f init = (.ok (f v2),
                tr1 ++ [.putContents (some sha)] ++ tr2 ++ [.putContents (some sha2)])) ∧
          (∀ e3, o.put2 = .err e3 →
              ghUpdate o f init = (.error e3,
                tr1 ++ [.putContents (some sha)] ++ tr2 ++ [.putContents (some sha2)]))))) ∧
    (numGets (ghUpdate o f init).2 = 2 ↔
      ((∃ v sha tr1, ghGetOrInit o.goi1 init = (.ok (v, sha), tr1)) ∧
        o.put1 = .err (some 409))) := by
  refine ⟨?_, ?_, ?_⟩
  · intro e tr h
    unfold ghUpdate
    rw [h]
  · intro v sha tr1 h
    refine ⟨?_, ?_, ?_⟩
    · intro s hp
      unfold ghUpdate
      rw [h]
      dsimp only
      rw [hp]
    · intro e hp hne
      unfold ghUpdate
      rw [h]
      dsimp only
      rw [hp]
      dsimp only
      rw [if_neg hne]
    · intro hp
      constructor
      · intro e2 tr2 h2
        unfold ghUpdate
        rw [h]
        dsimp only
        rw [hp]
        dsimp only
        rw [if_pos rfl, h2]
      · intro v2 sha2 tr2 h2
        constructor
        · intro s2 hp2
          unfold ghUpdate
          rw [h]
          dsimp only
          rw [hp]
          dsimp only
          rw [if_pos rfl, h2]
          dsimp only
          rw [hp2]
        · intro e3 hp2
          unfold ghUpdate
          rw [h]
          dsimp only
          rw [hp]
          dsimp only
          rw [if_pos rfl, h2]
          dsimp only
          rw [hp2]
  · have hn1 := numGets_ghGetOrInit o.goi1 init
    have hn2 := numGets_ghGetOrInit o.goi2 init
    unfold ghUpdate
    rcases hg : ghGetOrInit o.goi1 init with ⟨r1, tr1⟩
    rw [hg] at hn1
    have hn1' : numGets tr1 = 1 := hn1
    cases r1 with
    | error e1 =>
        dsimp only
        constructor
        · intro habs
          omega
        · rintro ⟨⟨v, sha, tr1', hok⟩, -⟩
          simp at hok
    | ok vs =>
        rcases vs with ⟨v, sha⟩
        dsimp only
        cases hp : o.put1 with
        | ok s =>
            dsimp only
            rw [numGets_append, numGets_put]
            constructor
            · intro habs
              omega
            · rintro ⟨-, hbad⟩
              simp at hbad
        | err e =>
            dsimp only
            by_cases he : e = some 409
            · subst he
              rw [if_pos rfl]
              rcases hg2 : ghGetOrInit o.goi2 init with ⟨r2, tr2⟩
              rw [hg2] at hn2
              have hn2' : numGets tr2 = 1 := hn2
              cases r2 with
              | error e2 =>
                  dsimp only
                  rw [numGets_append, numGets_append, numGets_put]
                  exact ⟨fun _ => ⟨⟨v, sha, tr1, rfl⟩, rfl⟩, fun _ => by omega⟩
              | ok vs2 =>
                  rcases vs2 with ⟨v2, sha2⟩
                  dsimp only
                  cases o.put2 with
                  | ok s2 =>
                      dsimp only
                      rw [numGets_append, numGets_append, numGets_append,
                        numGets_put, numGets_put]
                      exact ⟨fun _ => ⟨⟨v, sha, tr1, rfl⟩, rfl⟩, fun _ => by omega⟩
                  | err e3 =>
                      dsimp only
                      rw [numGets_append, numGets_append, numGets_append,
                        numGets_put, numGets_put]
                      exact ⟨fun _ => ⟨⟨v, sha, tr1, rfl⟩, rfl⟩, fun _ => by omega⟩
            · rw [if_neg he]
              dsimp only
              rw [numGets_append, numGets_put]
              constructor
              · intro habs
                omega
              · rintro ⟨-, hbad⟩
                injection hbad with h'
                exact absurd h' he

/-- Witness for C1: a concrete conflict run — GET yields `(5, sha 1)`,
the conditional put 409s, the re-fetch yields `(7, sha 2)`, and the retry
put succeeds, so the result is the mutator applied to the fresh value and
the trace shows exactly two GETs and two conditional puts. -/
theorem ghUpdate_conflict_retry_spec_witness :
    ghUpdate (⟨⟨.ok (5, 1), .ok 0⟩, .err (some 409), ⟨.ok (7, 2), .ok 0⟩, .ok 3⟩ :
        UpdOracle Nat) (fun v => v + 1) 0
      = (.ok 8, [.getContents, .putContents (some 1), .getContents, .putContents (some 2)]) := by
  have h := (ghUpdate_conflict_retry_spec
      (⟨⟨.ok (5, 1), .ok 0⟩, .err (some 409), ⟨.ok (7, 2), .ok 0⟩, .ok 3⟩ : UpdOracle Nat)
      (fun v => v + 1) 0).2.1 5 1 [.getContents] rfl
  have h2 := (h.2.2 rfl).2 7 2 [.getContents] rfl
  exact h2.1 3 rfl

theorem find?_eq_of_unique {α : Type} (p : α → Bool) (l : List α) (a : α)
    (ha : a ∈ l) (hpa : p a = true) (huniq : ∀ x ∈ l, p x = true → x = a) :
    l.find? p = some a := by
  induction l with
  | nil => cases ha
  | cons b t ih =>
      cases hb : p b with
      | true =>
          have hba : b = a := huniq b (List.mem_cons_self b t) hb
          rw [List.find?_cons_of_pos _ hb, hba]
      | false =>
          rw [List.find?_cons_of_neg]
          · apply ih
            · cases ha with
              | head => rw [hpa] at hb; exact Bool.noConfusion hb
              | tail _ h => exact h
            · intro x hx hpx
              exact huniq x (List.mem_cons_of_mem b hx) hpx
          · simp [hb]

/-- C2: with `ServiceState.enabled = false`, `resolve` answers 403 for
every id — before the catalog is consulted, so even when the `urls` read
would fail; with the service enabled, it answers 404 when no record has
the requested id with `active !== false`, and otherwise returns the
`{id, title, favicon, url}` of the matching record. -/
theorem resolve_gate_spec :
    (∀ (urlsRead : Except (Option Nat) (List LinkRecord)) (rid : String),
        resolveRoute (.ok false) urlsRead rid = .err 403 "Access disabled") ∧
    (∀ (urls : List LinkRecord) (rid : String),
        (∀ u ∈ urls, ¬(u.id = rid ∧ isActive u = true)) →
        resolveRoute (.ok true) (.ok urls) rid = .err 404 "Not found") ∧
    (∀ (urls : List LinkRecord) (rid : String) (item : LinkRecord),
        item ∈ urls → item.id = rid → isActive item = true →
        (∀ u ∈ urls, u.id = rid → isActive u = true → u = item) →
        resolveRoute (.ok true) (.ok urls) rid =
          .ok ⟨item.id, item.title, item.favicon, item.url⟩) := by
  refine ⟨?_, ?_, ?_⟩
  · intro urlsRead rid
    rfl
  · intro urls rid hnone
    have hfind : urls.find? (fun u => u.id == rid && isActive u) = none := by
      rw [List.find?_eq_none]
      intro x hx
      simp only [Bool.and_eq_true, beq_iff_eq]
      rintro ⟨h1, h2⟩
      exact hnone x hx ⟨h1, h2⟩
    show (match urls.find? (fun u => u.id == rid && isActive u) with
          | none => ApiResp.err 404 "Not found"
          | some item =>
              ApiResp.ok (⟨item.id, item.title, item.favicon, item.url⟩ : LinkView)) =
        ApiResp.err 404 "Not found"
    rw [hfind]
  · intro urls rid item hmem hid hact huniq
    have hfind : urls.find? (fun u => u.id == rid && isActive u) = some item := by
      apply find?_eq_of_unique
      · exact hmem
      · simp [hid, hact]
      · intro x hx hpx
        simp only [Bool.and_eq_true, beq_iff_eq] at hpx
        exact huniq x hx hpx.1 hpx.2
    show (match urls.find? (fun u => u.id == rid && isActive u) with
          | none => ApiResp.err 404 "Not found"
          | some item =>
              ApiResp.ok (⟨item.id, item.title, item.favicon, item.url⟩ : LinkView)) =
        ApiResp.ok (⟨item.id, item.title, item.favicon, item.url⟩ : LinkView)
    rw [hfind]

/-- Witness for C2: against a failing catalog read the disabled service
still 403s; an enabled service 404s on an empty catalog; and an enabled
service resolves a concrete active record. -/
theorem resolve_gate_spec_witness :
    resolveRoute (.ok false) (.error none) "x" = .err 403 "Access disabled" ∧
    resolveRoute (.ok true) (.ok []) "x" = .err 404 "Not found" ∧
    resolveRoute (.ok true)
        (.ok [⟨"i1", "http://u", "T", "F", some true, 0⟩]) "i1" =
      .ok ⟨"i1", "T", "F", "http://u"⟩ :=
  ⟨resolve_gate_spec.1 (.error none) "x",
   resolve_gate_spec.2.1 [] "x" (by simp),
   resolve_gate_spec.2.2 [⟨"i1", "http://u", "T", "F", some true, 0⟩] "i1"
     ⟨"i1", "http://u", "T", "F", some true, 0⟩ (List.mem_singleton.mpr rfl) rfl rfl
     (fun u hu _ _ => List.mem_singleton.mp hu)⟩

theorem length_filter_not_add {α : Type} (p : α → Bool) (l : List α) :
    (l.filter (fun a => !(p a))).length + (l.filter p).length = l.length := by
  induction l with
  | nil => rfl
  | cons a t ih =>
      cases h : p a with
      | true =>
          simp [List.filter_cons, h]
          omega
      | false =>
          simp [List.filter_cons, h]
          omega

/-- The `removed` counter equals the number of records carrying the id. -/
theorem removeMutator_snd (rid : String) (db : List LinkRecord) :
    (removeMutator rid db).2 = db.countP (fun u => u.id == rid) := by
  unfold removeMutator
  dsimp only
  rw [List.countP_eq_length_filter]
  have := length_filter_not_add (fun u => u.id == rid) db
  omega

/-- C5: `remove(id)` computes `removedCount` as before-minus-after of the
id filter: it is 1 when exactly one record carries the id and 0 when none
does — a nonexistent id gives a 200 response with count 0, not an error.
Hence add followed by remove of the fresh id counts 1, and a second
remove of the same id counts 0. -/
theorem remove_count_spec :
    (∀ (db : List LinkRecord) (rid : String),
        db.countP (fun u => u.id == rid) = 1 → (removeMutator rid db).2 = 1) ∧
    (∀ (db : List LinkRecord) (rid : String),
        (∀ u ∈ db, u.id ≠ rid) → removeRoute (.ok ()) db rid = .ok 0) ∧
    (∀ (db : List LinkRecord) (newId url : String) (t fv : Option String) (now : Nat),
        (∀ u ∈ db, u.id ≠ newId) →
        (removeMutator newId (addMutator newId url t fv now db)).2 = 1) ∧
    (∀ (db : List LinkRecord) (rid : String),
        (removeMutator rid (removeMutator rid db).1).2 = 0) := by
  refine ⟨?_, ?_, ?_, ?_⟩
  · intro db rid h
    rw [removeMutator_snd]
    exact h
  · intro db rid h
    unfold removeRoute
    rw [removeMutator_snd]
    have hz : db.countP (fun u => u.id == rid) = 0 := by
      rw [List.countP_eq_zero]
      intro a ha
      simpa using h a ha
    rw [hz]
  · intro db newId url t fv now h
    rw [removeMutator_snd]
    unfold addMutator
    rw [List.countP_append]
    have hz : db.countP (fun u => u.id == newId) = 0 := by
      rw [List.countP_eq_zero]
      intro a ha
      simpa using h a ha
    rw [hz]
    simp [List.countP_cons]
  · intro db rid
    rw [removeMutator_snd, List.countP_eq_zero]
    intro a ha
    unfold removeMutator at ha
    rw [List.mem_filter] at ha
    simpa using ha.2

/-- Witness for C5: on an empty catalog, removing a missing id answers
`{removed: 0}`; adding a record and removing its id counts 1; removing it
again counts 0. -/
theorem remove_count_spec_witness :
    removeRoute (.ok ()) [] "zz" = .ok 0 ∧
    (removeMutator "a" (addMutator "a" "http://u" none none 0 [])).2 = 1 ∧
    (removeMutator "a" (removeMutator "a" (addMutator "a" "http://u" none none 0 [])).1).2 = 0 :=
  ⟨remove_count_spec.2.1 [] "zz" (by simp),
   remove_count_spec.2.2.1 [] "a" "http://u" none none 0 (by simp),
   remove_count_spec.2.2.2 (addMutator "a" "http://u" none none 0 []) "a"⟩

/-- C9: the toggle mutator overwrites the `state` document wholesale with
`{enabled}` whatever its previous content; a successful toggle leaves the
`urls` and `pins` documents untouched; conversely the add and remove
updates never touch `state` (or `pins`), so the toggle is the only
transition of ServiceState; and the urls listing is never gated — its
record list is the same whether the service is enabled or disabled, the
flag being returned merely as a payload field. -/
theorem toggle_wholesale_frame_spec :
    (∀ (b : Bool) (prev : DocValue), toggleMutator b prev = .stateDoc b) ∧
    (∀ (s : Store) (b : Bool),
        toggleApply s b .stateP = .stateDoc b ∧
        toggleApply s b .urlsP = s .urlsP ∧
        toggleApply s b .pinsP = s .pinsP) ∧
    (∀ (s : Store) (newId url : String) (t fv : Option String) (now : Nat),
        addApply s newId url t fv now .stateP = s .stateP ∧
        addApply s newId url t fv now .pinsP = s .pinsP) ∧
    (∀ (s : Store) (rid : String),
        removeApply s rid .stateP = s .stateP ∧
        removeApply s rid .pinsP = s .pinsP) ∧
    (∀ (urls : List LinkRecord) (all : Bool), ∃ pub : List LinkView,
        urlsRoute (.ok urls) (.ok true) all = .ok ⟨true, pub⟩ ∧
        urlsRoute (.ok urls) (.ok false) all = .ok ⟨false, pub⟩) :=
  ⟨fun _ _ => rfl,
   fun _ _ => ⟨rfl, rfl, rfl⟩,
   fun _ _ _ _ _ _ => ⟨rfl, rfl⟩,
   fun _ _ => ⟨rfl, rfl⟩,
   fun urls all => ⟨(if all then urls else urls.filter isActive).map projRecord, rfl, rfl⟩⟩

/-- C7: `ghGetOrInit` on a missing document (GET answers 404) creates it
with the initial value and returns that value with the newly assigned
version token; not-found is the only error it absorbs — a non-404 GET
error propagates, as does a failure of the initializing PUT.
Consequently, against an empty store (both documents missing, creation
succeeding), `GET /api/urls` answers `{ok, enabled: true, urls: []}`. -/
theorem getOrInit_create_spec :
    (∀ (V : Type) (o : GOIOracle V) (init : V) (sha : Nat),
        o.get = .err (some 404) → o.ipOut = .ok sha →
        ghGetOrInit o init = (.ok (init, sha), [.getContents, .putContents none])) ∧
    (∀ (V : Type) (o : GOIOracle V) (init : V) (e : Option Nat),
        o.get = .err e → e ≠ some 404 →
        ghGetOrInit o init = (.error e, [.getContents])) ∧
    (∀ (V : Type) (o : GOIOracle V) (init : V) (e2 : Option Nat),
        o.get = .err (some 404) → o.ipOut = .err e2 →
        ghGetOrInit o init = (.error e2, [.getContents, .putContents none])) ∧
    urlsRoute (ghRead (⟨.err (some 404), .ok 1⟩ : GOIOracle (List LinkRecord)) [])
        (ghRead (⟨.err (some 404), .ok 1⟩ : GOIOracle Bool) true) false =
      .ok ⟨true, []⟩ := by
  refine ⟨?_, ?_, ?_, rfl⟩
  · intro V o init sha hg hip
    unfold ghGetOrInit
    rw [hg]
    dsimp only
    rw [if_pos rfl, hip]
  · intro V o init e hg hne
    unfold ghGetOrInit
    rw [hg]
    dsimp only
    rw [if_neg hne]
  · intro V o init e2 hg hip
    unfold ghGetOrInit
    rw [hg]
    dsimp only
    rw [if_pos rfl, hip]

/-- Witness for C7: creating a missing document returns the initial value
with the fresh sha after a GET and an unconditional PUT. -/
theorem getOrInit_create_spec_witness :
    ghGetOrInit (⟨.err (some 404), .ok 7⟩ : GOIOracle Nat) 5 =
      (.ok (5, 7), [.getContents, .putContents none]) :=
  getOrInit_create_spec.1 Nat ⟨.err (some 404), .ok 7⟩ 5 7 rfl rfl

theorem find?_append_right {α : Type} (p : α → Bool) (l1 l2 : List α)
    (h : ∀ x ∈ l1, p x = false) : (l1 ++ l2).find? p = l2.find? p := by
  induction l1 with
  | nil => rfl
  | cons a t ih =>
      rw [List.cons_append, List.find?_cons_of_neg]
      · exact ih (fun x hx => h x (List.mem_cons_of_mem a hx))
      · simp [h a (List.mem_cons_self a t)]

/-- The backfill patch keeps every record's id and url, and keeps any
already non-empty title or favicon (`x || ...` short-circuits on a truthy
current value). -/
theorem backfillMutator_preserves (tid mt mf hn : String) (db : List LinkRecord) :
    List.Forall₂ (fun u v => v.id = u.id ∧ v.url = u.url ∧
      (u.title ≠ "" → v.title = u.title) ∧
      (u.favicon ≠ "" → v.favicon = u.favicon)) db (backfillMutator tid mt mf hn db) := by
  induction db with
  | nil => exact .nil
  | cons u rest ih =>
      unfold backfillMutator
      by_cases h : (u.id == tid) = true
      · rw [if_pos h]
        refine .cons ⟨rfl, rfl, ?_, ?_⟩ ?_
        · intro ht
          show jsOr u.title (jsOr mt hn) = u.title
          unfold jsOr
          rw [if_neg ht]
        · intro hf
          show jsOr u.favicon (jsOr mf "") = u.favicon
          unfold jsOr
          rw [if_neg hf]
        · rw [List.forall₂_same]
          intro x _
          exact ⟨rfl, rfl, fun _ => rfl, fun _ => rfl⟩
      · rw [if_neg h]
        exact .cons ⟨rfl, rfl, fun _ => rfl, fun _ => rfl⟩ ih

/-- Every record survives the backfill patch with its id and url. -/
theorem backfillMutator_mem (tid mt mf hn : String) (db : List LinkRecord) :
    ∀ u ∈ db, ∃ v ∈ backfillMutator tid mt mf hn db, v.id = u.id ∧ v.url = u.url := by
  induction db with
  | nil => intro u hu; cases hu
  | cons w rest ih =>
      intro u hu
      unfold backfillMutator
      by_cases h : (w.id == tid) = true
      · rw [if_pos h]
        cases hu with
        | head =>
            exact ⟨_, List.mem_cons_self _ _, rfl, rfl⟩
        | tail _ hm =>
            exact ⟨u, List.mem_cons_of_mem _ hm, rfl, rfl⟩
      · rw [if_neg h]
        cases hu with
        | head => exact ⟨w, List.mem_cons_self _ _, rfl, rfl⟩
        | tail _ hm =>
            obtain ⟨v, hv, h1, h2⟩ := ih u hm
            exact ⟨v, List.mem_cons_of_mem _ hv, h1, h2⟩

/-- Add-handler run, successful first update, both metadata fields
supplied truthy: no probe, no backfill, respond with the fresh id. -/
theorem addHandler_nofill (db0 : List LinkRecord) (newId url hostname : String)
    (now : Nat) (tf ff : Option String) (probe : Except Unit PageMeta)
    (second : Except (Option Nat) Unit)
    (hcond : (!(jsTruthy tf) || !(jsTruthy ff)) = false) :
    addHandler ⟨newId, now, db0, .ok (), probe, second, hostname⟩ ⟨some url, tf, ff⟩ =
      ⟨.ok newId, addMutator newId url tf ff now db0, [.firstUpdate, .respond]⟩ := by
  unfold addHandler
  dsimp only
  rw [show (addMutator newId url tf ff now db0).getLast? =
      some ⟨newId, url, jsOrOpt tf "", jsOrOpt ff "", some true, now⟩ from
      List.getLast?_concat _]
  dsimp only
  rw [hcond]
  rw [if_neg Bool.false_ne_true]

/-- Add-handler run, successful first update, backfill wanted but the
probe step fails: the failure is swallowed, respond with the fresh id. -/
theorem addHandler_probe_err (db0 : List LinkRecord) (newId url hostname : String)
    (now : Nat) (tf ff : Option String) (pe : Unit) (second : Except (Option Nat) Unit)
    (hcond : (!(jsTruthy tf) || !(jsTruthy ff)) = true) :
    addHandler ⟨newId, now, db0, .ok (), .error pe, second, hostname⟩ ⟨some url, tf, ff⟩ =
      ⟨.ok newId, addMutator newId url tf ff now db0,
        [.firstUpdate, .probe, .respond]⟩ := by
  unfold addHandler
  dsimp only
  rw [show (addMutator newId url tf ff now db0).getLast? =
      some ⟨newId, url, jsOrOpt tf "", jsOrOpt ff "", some true, now⟩ from
      List.getLast?_concat _]
  dsimp only
  rw [hcond]
  rw [if_pos rfl]

/-- Add-handler run, backfill wanted, probe succeeds but the second store
update fails: swallowed, catalog keeps the un-backfilled record. -/
theorem addHandler_second_err (db0 : List LinkRecord) (newId url hostname : String)
    (now : Nat) (tf ff : Option String) (meta : PageMeta) (se : Option Nat)
    (hcond : (!(jsTruthy tf) || !(jsTruthy ff)) = true) :
    addHandler ⟨newId, now, db0, .ok (), .ok meta, .error se, hostname⟩ ⟨some url, tf, ff⟩ =
      ⟨.ok newId, addMutator newId url tf ff now db0,
        [.firstUpdate, .probe, .backfillUpdate, .respond]⟩ := by
  unfold addHandler
  dsimp only
  rw [show (addMutator newId url tf ff now db0).getLast? =
      some ⟨newId, url, jsOrOpt tf "", jsOrOpt ff "", some true, now⟩ from
      List.getLast?_concat _]
  dsimp only
  rw [hcond]
  rw [if_pos rfl]

/-- Add-handler run, backfill wanted and everything succeeds: the final
catalog is the appended record patched by the backfill mutator. -/
theorem addHandler_backfilled (db0 : List LinkRecord) (newId url hostname : String)
    (now : Nat) (tf ff : Option String) (meta : PageMeta)
    (hcond : (!(jsTruthy tf) || !(jsTruthy ff)) = true) :
    addHandler ⟨newId, now, db0, .ok (), .ok meta, .ok (), hostname⟩ ⟨some url, tf, ff⟩ =
      ⟨.ok newId,
        backfillMutator newId meta.title meta.favicon hostname
          (addMutator newId url tf ff now db0),
        [.firstUpdate, .probe, .backfillUpdate, .respond]⟩ := by
  unfold addHandler
  dsimp only
  rw [show (addMutator newId url tf ff now db0).getLast? =
      some ⟨newId, url, jsOrOpt tf "", jsOrOpt ff "", some true, now⟩ from
      List.getLast?_concat _]
  dsimp only
  rw [hcond]
  rw [if_pos rfl]

/-- C3: adding with explicitly supplied non-empty title `T` and favicon
`F` appends `{id, url, title: T, favicon: F, active: true, createdAt}`
and skips probe and backfill entirely, so resolving the returned (fresh)
id on the resulting catalog returns exactly `{id, title: T, favicon: F,
url}` — whatever the probe or second update would have done; moreover
the backfill mutator never overwrites a non-empty title or favicon of
any record. -/
theorem add_roundtrip_spec :
    (∀ (db0 : List LinkRecord) (newId url T F hostname : String) (now : Nat)
        (probe : Except Unit PageMeta) (second : Except (Option Nat) Unit),
        T ≠ "" → F ≠ "" → (∀ u ∈ db0, u.id ≠ newId) →
        (addHandler ⟨newId, now, db0, .ok (), probe, second, hostname⟩
            ⟨some url, some T, some F⟩).resp = .ok newId ∧
        resolveRoute (.ok true)
            (.ok (addHandler ⟨newId, now, db0, .ok (), probe, second, hostname⟩
                ⟨some url, some T, some F⟩).catalog) newId =
          .ok ⟨newId, T, F, url⟩) ∧
    (∀ (tid mt mf hn : String) (db : List LinkRecord),
        List.Forall₂ (fun u v => (u.title ≠ "" → v.title = u.title) ∧
          (u.favicon ≠ "" → v.favicon = u.favicon)) db
          (backfillMutator tid mt mf hn db)) := by
  constructor
  · intro db0 newId url T F hostname now probe second hT hF hfresh
    have hcond : (!(jsTruthy (some T)) || !(jsTruthy (some F))) = false := by
      simp [jsTruthy, hT, hF]
    rw [addHandler_nofill db0 newId url hostname now (some T) (some F) probe second hcond]
    refine ⟨rfl, ?_⟩
    have htitle : jsOrOpt (some T) "" = T := by
      unfold jsOrOpt jsOr
      dsimp only
      rw [if_neg hT]
    have hfav : jsOrOpt (some F) "" = F := by
      unfold jsOrOpt jsOr
      dsimp only
      rw [if_neg hF]
    have hfind : (addMutator newId url (some T) (some F) now db0).find?
        (fun u => u.id == newId && isActive u) =
        some ⟨newId, url, jsOrOpt (some T) "", jsOrOpt (some F) "", some true, now⟩ := by
      unfold addMutator
      rw [find?_append_right _ _ _ (fun x hx => by simp [hfresh x hx]),
        List.find?_cons_of_pos _ (by simp [isActive])]
    show (match (addMutator newId url (some T) (some F) now db0).find?
            (fun u => u.id == newId && isActive u) with
          | none => ApiResp.err 404 "Not found"
          | some item =>
              ApiResp.ok (⟨item.id, item.title, item.favicon, item.url⟩ : LinkView)) =
        ApiResp.ok ⟨newId, T, F, url⟩
    rw [hfind]
    dsimp only
    rw [htitle, hfav]
  · intro tid mt mf hn db
    exact (backfillMutator_preserves tid mt mf hn db).imp
      (fun a b h => ⟨h.2.2.1, h.2.2.2⟩)

/-- Witness for C3: a concrete add with explicit title and favicon (and
failing probe/second-update outcomes, which must not matter) resolves to
exactly the supplied metadata. -/
theorem add_roundtrip_spec_witness :
    (addHandler ⟨"n1", 3, [], .ok (), .error (), .error none, "h"⟩
        ⟨some "http://u", some "T", some "F"⟩).resp = .ok "n1" ∧
    resolveRoute (.ok true)
        (.ok (addHandler ⟨"n1", 3, [], .ok (), .error (), .error none, "h"⟩
            ⟨some "http://u", some "T", some "F"⟩).catalog) "n1" =
      .ok ⟨"n1", "T", "F", "http://u"⟩ :=
  add_roundtrip_spec.1 [] "n1" "http://u" "T" "F" "h" 3 (.error ()) (.error none)
    (by decide) (by decide) (by simp)

/-- C4 (amended): when title or favicon is left falsy, the probe and the
second (backfill) store update are performed — and awaited — before the
response is sent, but any failure of either is swallowed: for every probe
and second-update outcome the handler responds `ok` with the id produced
by the first update, the record persists in the catalog (possibly without
metadata), and the step trace always ends in the response, preceded by
the probe (and the backfill update when the probe succeeded). -/
theorem add_backfill_swallow_spec :
    ∀ (db0 : List LinkRecord) (newId url hostname : String) (now : Nat)
      (tf ff : Option String) (probe : Except Unit PageMeta)
      (second : Except (Option Nat) Unit),
      (!(jsTruthy tf) || !(jsTruthy ff)) = true →
      (addHandler ⟨newId, now, db0, .ok (), probe, second, hostname⟩
          ⟨some url, tf, ff⟩).resp = .ok newId ∧
      (∃ v ∈ (addHandler ⟨newId, now, db0, .ok (), probe, second, hostname⟩
          ⟨some url, tf, ff⟩).catalog, v.id = newId ∧ v.url = url) ∧
      ((addHandler ⟨newId, now, db0, .ok (), probe, second, hostname⟩
          ⟨some url, tf, ff⟩).events = [.firstUpdate, .probe, .respond] ∨
       (addHandler ⟨newId, now, db0, .ok (), probe, second, hostname⟩
          ⟨some url, tf, ff⟩).events =
         [.firstUpdate, .probe, .backfillUpdate, .respond]) := by
  intro db0 newId url hostname now tf ff probe second hcond
  have hrecmem : (⟨newId, url, jsOrOpt tf "", jsOrOpt ff "", some true, now⟩ : LinkRecord)
      ∈ addMutator newId url tf ff now db0 := by
    unfold addMutator
    exact List.mem_append_right _ (List.mem_singleton.mpr rfl)
  cases probe with
  | error pe =>
      rw [addHandler_probe_err db0 newId url hostname now tf ff pe second hcond]
      exact ⟨rfl, ⟨_, hrecmem, rfl, rfl⟩, .inl rfl⟩
  | ok meta =>
      cases second with
      | error se =>
          rw [addHandler_second_err db0 newId url hostname now tf ff meta se hcond]
          exact ⟨rfl, ⟨_, hrecmem, rfl, rfl⟩, .inr rfl⟩
      | ok u =>
          cases u
          rw [addHandler_backfilled db0 newId url hostname now tf ff meta hcond]
          obtain ⟨v, hv, h1, h2⟩ := backfillMutator_mem newId meta.title meta.favicon
            hostname (addMutator newId url tf ff now db0) _ hrecmem
          exact ⟨rfl, ⟨v, hv, h1, h2⟩, .inr rfl⟩

/-- Witness for C4: a concrete add with absent title and failing probe
step still answers `ok` with the id, and the record is in the catalog. -/
theorem add_backfill_swallow_spec_witness :
    (addHandler ⟨"n2", 0, [], .ok (), .error (), .ok (), "h"⟩
        ⟨some "http://u", none, some "F"⟩).resp = .ok "n2" ∧
    (∃ v ∈ (addHandler ⟨"n2", 0, [], .ok (), .error (), .ok (), "h"⟩
        ⟨some "http://u", none, some "F"⟩).catalog, v.id = "n2" ∧ v.url = "http://u") :=
  ⟨(add_backfill_swallow_spec [] "n2" "http://u" "h" 0 none (some "F") (.error ()) (.ok ())
      (by decide)).1,
   (add_backfill_swallow_spec [] "n2" "http://u" "h" 0 none (some "F") (.error ()) (.ok ())
      (by decide)).2.1⟩

/-- C4 counterexample: with no title/favicon supplied and everything
succeeding, the handler's step trace is
`[firstUpdate, probe, backfillUpdate, respond]` — the response is emitted
only after the backfill update completed, i.e. the backfill is awaited by
the caller's response, contradicting the claimed "not awaited by the
caller's response" (fire-and-forget) behaviour. -/
theorem add_backfill_awaited_cex :
    (addHandler ⟨"n1", 0, [], .ok (), .ok ⟨"T", "fav"⟩, .ok (), "e.com"⟩
        ⟨some "http://e.com", none, none⟩).events =
      [.firstUpdate, .probe, .backfillUpdate, .respond] := by
  rfl

/-! ## Lemmas about the Bearer stripping -/

theorem stripFirst_prepend (pat t : List Char) (hne : pat ≠ []) :
    stripFirst pat (pat ++ t) = t := by
  cases pat with
  | nil => exact absurd rfl hne
  | cons c p' =>
      rw [List.cons_append]
      unfold stripFirst
      rw [if_pos]
      · rw [show c :: (p' ++ t) = (c :: p') ++ t from rfl]
        exact List.drop_left _ _
      · rw [ List.isPrefixOf_iff_prefix,
          show c :: (p' ++ t) = (c :: p') ++ t from rfl]
        exact List.prefix_append _ _

theorem stripFirst_of_not_occurs (pat s : List Char)
    (h : occursIn pat s = false) : stripFirst pat s = s := by
  induction s with
  | nil => rfl
  | cons c rest ih =>
      unfold occursIn at h
      rw [Bool.or_eq_false_iff] at h
      unfold stripFirst
      rw [if_neg (by simp [h.1])]
      rw [ih h.2]

theorem stripBearer_prepend (tok : String) : stripBearer ("Bearer " ++ tok) = tok := by
  unfold stripBearer
  rw [String.data_append, stripFirst_prepend _ _ (by decide)]

theorem randomToken_ne_empty (x : String) : randomToken x ≠ "" := by
  unfold randomToken
  intro h
  have h2 : ("adm_" ++ x).data = "".data := congrArg String.data h
  rw [String.data_append] at h2
  exact absurd (List.append_eq_nil.mp h2).1 (by decide)

/-- C6 (amended to non-empty pins): for every non-empty pin contained in
the PinSet document, login succeeds, the freshly generated token is added
to the in-memory token set, and a subsequent request carrying
`Authorization: Bearer <token>` passes auth; for a pin absent from the
PinSet — or an absent pin field — login answers 401 and the token set is
unchanged. -/
theorem login_auth_spec :
    ∀ (pins tokens : List String) (pin x : String),
      (pin ≠ "" → pins.contains pin = true →
        loginRoute pins tokens (some pin) (randomToken x) =
          (.ok (randomToken x), randomToken x :: tokens) ∧
        authOk (randomToken x :: tokens) (some ("Bearer " ++ randomToken x)) = true) ∧
      (pins.contains pin = false →
        loginRoute pins tokens (some pin) (randomToken x) = (.err 401 "bad pin", tokens)) ∧
      (loginRoute pins tokens none (randomToken x) = (.err 401 "bad pin", tokens)) := by
  intro pins tokens pin x
  refine ⟨?_, ?_, rfl⟩
  · intro hpin hmem
    have hmem' : pin ∈ pins := by simpa using hmem
    constructor
    · unfold loginRoute
      dsimp only
      rw [if_neg (by simp [hpin, hmem'])]
    · unfold authOk
      simp only [Option.getD_some]
      rw [stripBearer_prepend,
        beq_eq_false_iff_ne.mpr (randomToken_ne_empty x), List.contains_cons]
      simp
  · intro hmem
    have hmem' : pin ∉ pins := by simpa using hmem
    unfold loginRoute
    dsimp only
    rw [if_pos (by simp [hmem'])]

/-- Witness for C6: pin "1234" present in the PinSet logs in, the token
is stored, and the bearer header authenticates. -/
theorem login_auth_spec_witness :
    loginRoute ["1234"] [] (some "1234") (randomToken "abc") =
      (.ok (randomToken "abc"), [randomToken "abc"]) ∧
    authOk [randomToken "abc"] (some ("Bearer " ++ randomToken "abc")) = true :=
  (login_auth_spec ["1234"] [] "1234" "abc").1 (by decide) (by decide)

/-- C6 counterexample: the empty string is a pin present in the PinSet
document, yet login rejects it with 401 and no token is issued — the
handler's `!pin` treats the empty pin like a missing one, so the claim's
"every pin string present in the PinSet" fails at `""`. -/
theorem login_empty_pin_cex :
    ([""] : List String).contains "" = true ∧
    loginRoute [""] [] (some "") (randomToken "x") = (.err 401 "bad pin", []) :=
  ⟨rfl, rfl⟩

/-- C10 (amended): auth removes the first occurrence of the substring
`"Bearer "` anywhere in the Authorization header — not only a leading
prefix — before the membership lookup.  Hence a header that is exactly a
stored token containing no `"Bearer "` occurrence authenticates, as does
`"Bearer " ++ token` for any stored non-empty token; and a header whose
stripped value is empty or not in the token set is rejected. -/
theorem auth_strip_spec :
    ∀ (tokens : List String) (t hdr : String),
      (occursIn "Bearer ".data t.data = false → t ≠ "" → tokens.contains t = true →
        authOk tokens (some t) = true) ∧
      (t ≠ "" → tokens.contains t = true →
        authOk tokens (some ("Bearer " ++ t)) = true) ∧
      ((stripBearer hdr = "" ∨ tokens.contains (stripBearer hdr) = false) →
        authOk tokens (some hdr) = false) := by
  intro tokens t hdr
  refine ⟨?_, ?_, ?_⟩
  · intro hocc hne hmem
    unfold authOk
    simp only [Option.getD_some]
    have hs : stripBearer t = t := by
      unfold stripBearer
      rw [stripFirst_of_not_occurs _ _ hocc]
    rw [hs, beq_eq_false_iff_ne.mpr hne, hmem]
    rfl
  · intro hne hmem
    unfold authOk
    simp only [Option.getD_some]
    rw [stripBearer_prepend, beq_eq_false_iff_ne.mpr hne, hmem]
    rfl
  · intro h
    unfold authOk
    simp only [Option.getD_some]
    cases h with
    | inl h =>
        rw [h]
        rfl
    | inr h =>
        rw [h, Bool.and_false]

/-- Witness for C10: a stored token authenticates both bare and with the
Bearer prefix; an unknown header is rejected. -/
theorem auth_strip_spec_witness :
    authOk ["adm_y"] (some "adm_y") = true ∧
    authOk ["adm_y"] (some ("Bearer " ++ "adm_y")) = true ∧
    authOk ["adm_y"] (some "nope") = false :=
  ⟨(auth_strip_spec ["adm_y"] "adm_y" "nope").1 (by decide) (by decide) (by decide),
   (auth_strip_spec ["adm_y"] "adm_y" "nope").2.1 (by decide) (by decide),
   (auth_strip_spec ["adm_y"] "adm_y" "nope").2.2 (.inr (by decide))⟩

/-- C10 counterexample: with stored token `"adm_x"`, the header
`"adm_Bearer x"` — which is neither `"adm_x"` nor `"Bearer adm_x"` —
nevertheless authenticates, because `replace("Bearer ", "")` removes the
first occurrence anywhere in the header, not only a leading prefix; this
also refutes "any non-empty header value not equal to ('Bearer ' +) a
stored token is rejected". -/
theorem auth_replace_anywhere_cex :
    authOk ["adm_x"] (some "adm_Bearer x") = true ∧
    "adm_Bearer x" ≠ "adm_x" ∧
    "adm_Bearer x" ≠ "Bearer " ++ "adm_x" :=
  ⟨by decide, by decide, by decide⟩

/-! ## Lemmas about the metadata probe -/

theorem jsOrOpt_truthy (h b : String) (hne : h ≠ "") : jsOrOpt (some h) b = h := by
  unfold jsOrOpt jsOr
  dsimp only
  rw [if_neg hne]

theorem jsOrOpt_falsy (a : Option String) (b : String)
    (ha : a = none ∨ a = some "") : jsOrOpt a b = b := by
  rcases ha with h | h <;> subst h <;> rfl

/-- C8 (amended: the title is kept when the fetch succeeded and only the
favicon falls back): the probe is a total function — every failure is
caught inside it; the favicon is the first non-empty match among the
`icon`, `shortcut icon` and `apple-touch-icon` rel links, in that order
with no merging, resolved to an absolute URL against the page URL; when
no such link is present the favicon falls back to
`<origin>/favicon.ico` while the extracted title is kept; and when the
fetch fails entirely the title degrades to the empty string with the
favicon falling back to `<origin>/favicon.ico` whenever the input URL
parses (staying empty otherwise). -/
theorem getPageMeta_spec :
    ∀ (ops : UrlOps) (page : FetchedPage) (url : String),
      (∀ o, ops.origin url = some o →
          getPageMeta ops .fail url = ⟨"", o ++ "/favicon.ico"⟩) ∧
      (ops.origin url = none → getPageMeta ops .fail url = ⟨"", ""⟩) ∧
      (∀ h abs, page.relIcon = some h → h ≠ "" → ops.resolve h url = some abs →
          getPageMeta ops (.ok page) url = ⟨jsTrim page.titleText, abs⟩) ∧
      (∀ h abs, (page.relIcon = none ∨ page.relIcon = some "") →
          page.relShortcut = some h → h ≠ "" → ops.resolve h url = some abs →
          getPageMeta ops (.ok page) url = ⟨jsTrim page.titleText, abs⟩) ∧
      (∀ h abs, (page.relIcon = none ∨ page.relIcon = some "") →
          (page.relShortcut = none ∨ page.relShortcut = some "") →
          page.relApple = some h → h ≠ "" → ops.resolve h url = some abs →
          getPageMeta ops (.ok page) url = ⟨jsTrim page.titleText, abs⟩) ∧
      ((page.relIcon = none ∨ page.relIcon = some "") →
          (page.relShortcut = none ∨ page.relShortcut = some "") →
          (page.relApple = none ∨ page.relApple = some "") →
          ∀ o, ops.origin url = some o →
          getPageMeta ops (.ok page) url =
            ⟨jsTrim page.titleText, o ++ "/favicon.ico"⟩) := by
  intro ops page url
  refine ⟨?_, ?_, ?_, ?_, ?_, ?_⟩
  · intro o ho
    unfold getPageMeta
    rw [ho]
  · intro ho
    unfold getPageMeta
    rw [ho]
  · intro h abs hic hne hres
    have hhref : jsOrOpt page.relIcon (jsOrOpt page.relShortcut (jsOrOpt page.relApple ""))
        = h := by
      rw [hic, jsOrOpt_truthy _ _ hne]
    unfold getPageMeta
    dsimp only
    rw [hhref, if_neg (by simp [hne]), hres]
  · intro h abs hic hsc hne hres
    have hhref : jsOrOpt page.relIcon (jsOrOpt page.relShortcut (jsOrOpt page.relApple ""))
        = h := by
      rw [jsOrOpt_falsy _ _ hic, hsc, jsOrOpt_truthy _ _ hne]
    unfold getPageMeta
    dsimp only
    rw [hhref, if_neg (by simp [hne]), hres]
  · intro h abs hic hsc hap hne hres
    have hhref : jsOrOpt page.relIcon (jsOrOpt page.relShortcut (jsOrOpt page.relApple ""))
        = h := by
      rw [jsOrOpt_falsy _ _ hic, jsOrOpt_falsy _ _ hsc, hap, jsOrOpt_truthy _ _ hne]
    unfold getPageMeta
    dsimp only
    rw [hhref, if_neg (by simp [hne]), hres]
  · intro hic hsc hap o ho
    have hhref : jsOrOpt page.relIcon (jsOrOpt page.relShortcut (jsOrOpt page.relApple ""))
        = "" := by
      rw [jsOrOpt_falsy _ _ hic, jsOrOpt_falsy _ _ hsc, jsOrOpt_falsy _ _ hap]
    unfold getPageMeta
    dsimp only
    rw [hhref, if_pos (show (("" : String) == "") = true from rfl), ho]

/-- Witness for C8: a page whose `icon` link is empty but whose
`shortcut icon` link is `/i.png` resolves the latter; a fetch failure
on a parseable URL degrades to an empty title and the origin default. -/
theorem getPageMeta_spec_witness :
    getPageMeta
        ⟨fun h u => if h = "/i.png" && u = "http://e.com" then some "http://e.com/i.png"
            else none,
          fun u => if u = "http://e.com" then some "http://e.com" else none⟩
        (.ok ⟨" T ", some "", some "/i.png", none⟩) "http://e.com" =
      ⟨"T", "http://e.com/i.png"⟩ ∧
    getPageMeta
        ⟨fun _ _ => none, fun u => if u = "http://e.com" then some "http://e.com" else none⟩
        .fail "http://e.com" = ⟨"", "http://e.com/favicon.ico"⟩ :=
  ⟨(getPageMeta_spec
      ⟨fun h u => if h = "/i.png" && u = "http://e.com" then some "http://e.com/i.png"
          else none,
        fun u => if u = "http://e.com" then some "http://e.com" else none⟩
      ⟨" T ", some "", some "/i.png", none⟩ "http://e.com").2.2.2.1 "/i.png"
      "http://e.com/i.png" (.inr rfl) rfl (by decide) (by decide),
   (getPageMeta_spec
      ⟨fun _ _ => none, fun u => if u = "http://e.com" then some "http://e.com" else none⟩
      ⟨" T ", some "", some "/i.png", none⟩ "http://e.com").1 "http://e.com" (by decide)⟩

/-- C8 counterexample: a successful fetch of a page carrying a title but
no icon rel link keeps the extracted title — it does not degrade to the
empty string — while only the favicon falls back to
`<origin>/favicon.ico`; so the claim's "if none is present, ... the title
degrades to the empty string" fails on this input. -/
theorem getPageMeta_title_kept_cex :
    getPageMeta
        ⟨fun _ _ => none, fun u => if u = "http://e.com" then some "http://e.com" else none⟩
        (.ok ⟨"My Title", none, none, none⟩) "http://e.com" =
      ⟨"My Title", "http://e.com/favicon.ico"⟩ ∧
    "My Title" ≠ "" := by
  refine ⟨by decide, by decide⟩

end WLG
